import Mathlib

/-!
Verification of the BatchMatMul operator schema and gradient maker from
`caffe2/operators/batch_matmul_op.cc`.

The file shallowly embeds the two pure pieces of that translation unit:

* the `TensorInferenceFunction` attached to the `BatchMatMul` operator schema
  (static shape inference, with a non-broadcast and a broadcast path), and
* `GetBatchMatMulGradient::GetGradientDefs` (gradient synthesis).

Tensor dimensions are modelled as `List Nat`; protobuf repeated-field access
`dims(i)` (which aborts on an out-of-range index) and out-of-range
`std::vector` indexing are both modelled as `List.getElem?` returning `none`,
mapped to a `ShapeError`.  `CAFFE_ENFORCE` failures are modelled as
`Except.error`.
-/

set_option autoImplicit false
set_option linter.unusedVariables false

deriving instance DecidableEq for Except

namespace BatchMatMul

/-- A tensor shape: ordered dimensions plus a data-type tag, mirroring
`TensorShape` (`dims` and `data_type`) as used by the inference function. -/
structure TensorShape where
  dims : List Nat
  data_type : Nat
  deriving DecidableEq

/-- A single operator argument, mirroring the `Argument` protobuf message as
used here: a name and an integer payload (the `.i()` field). -/
structure Argument where
  name : String
  i : Int
  deriving DecidableEq

/-- An operator definition, mirroring the fields of `OperatorDef` consumed by
this translation unit: type, name, ordered inputs, ordered outputs, ordered
arguments. -/
structure OperatorDef where
  op_type : String
  op_name : String
  input : List String
  output : List String
  arg : List Argument
  deriving DecidableEq

/-- `ArgumentHelper::HasArgument` / `OperatorDef` argument lookup: is there an
argument with the given name. -/
def hasArgument (d : OperatorDef) (s : String) : Bool :=
  d.arg.any (fun a => a.name == s)

/-- `GetArgument(def, name).i()`: the integer payload of the named argument
(the caffe2 helper aborts when absent; callers in this file guard with
`hasArgument`, so the `none` case is defaulted to `0`). -/
def getArgumentI (d : OperatorDef) (s : String) : Int :=
  match d.arg.find? (fun a => a.name == s) with
  | some a => a.i
  | none => 0

/-- `ArgumentHelper::GetSingleArgument<int>(name, default)`. -/
def getSingleArgumentI (d : OperatorDef) (s : String) (dflt : Int) : Int :=
  if hasArgument d s then getArgumentI d s else dflt

/-- Errors raised by the shape-inference function: `rankTooSmall` models the
`CAFFE_ENFORCE_GE(ndim, 2)` failure; `dimOutOfRange` models an out-of-range
dimension access (protobuf `dims(i)` check failure / vector indexing past the
end). -/
inductive ShapeError where
  | rankTooSmall
  | dimOutOfRange
  deriving DecidableEq

/-- Non-broadcast path of the `BatchMatMul` `TensorInferenceFunction`
(source lines 48-71), on raw dimension lists.  `ndim` is the rank of A; the
index into B is computed from `ndim`, exactly as in the source. -/
def inferShapeDims (ta tb : Bool) (dimsA dimsB : List Nat) :
    Except ShapeError (List Nat) :=
  let ndim := dimsA.length
  if ndim < 2 then .error .rankTooSmall
  else
    match (if ta then dimsA[ndim - 1]? else dimsA[ndim - 2]?),
          (if tb then dimsB[ndim - 2]? else dimsB[ndim - 1]?) with
    | some a_dim0, some b_dim1 =>
        .ok ((dimsA.set (ndim - 2) a_dim0).set (ndim - 1) b_dim1)
    | _, _ => .error .dimOutOfRange

/-- Broadcast path of the `BatchMatMul` `TensorInferenceFunction`
(source lines 73-127), on raw dimension lists: 1-D operands are promoted
(A by a leading 1, B by a trailing 1), M/N are read honoring the transpose
flags, the leading dims are taken verbatim from the operand with not fewer
dims, and M / N / a trailing 1 are appended per the broadcast flags.
This path contains no enforce and indexes `std::vector`s without a bounds
check (in range for every input of rank ≥ 1 after promotion; rank-0 input
is undefined behaviour in the source), so the reads are modelled with
`List.getD _ 0` and the path is total.  The source also computes K and
K_dim but never uses them for the output shape, so they are omitted. -/
def inferShapeDimsBroadcast (ta tb : Bool) (dimsA0 dimsB0 : List Nat) :
    List Nat :=
  let A_broadcasted := dimsA0.length == 1
  let B_broadcasted := dimsB0.length == 1
  let dims_A := if A_broadcasted then 1 :: dimsA0 else dimsA0
  let dims_B := if B_broadcasted then dimsB0 ++ [1] else dimsB0
  let ndims_A := dims_A.length
  let ndims_B := dims_B.length
  let M := if ta then dims_A.getD (ndims_A - 1) 0
           else dims_A.getD (ndims_A - 2) 0
  let N := if tb then dims_B.getD (ndims_B - 2) 0
           else dims_B.getD (ndims_B - 1) 0
  (if ndims_B ≤ ndims_A then dims_A.take (ndims_A - 2)
   else dims_B.take (ndims_B - 2))
  ++ (if A_broadcasted then [] else [M])
  ++ (if B_broadcasted then [] else [N])
  ++ (if A_broadcasted && B_broadcasted then [1] else [])

/-- The `trans_a` flag as read by the inference function:
`GetSingleArgument<int>("trans_a", 0)` used as a boolean. -/
def inferTransA (d : OperatorDef) : Bool :=
  getSingleArgumentI d "trans_a" 0 != 0

/-- The `trans_b` flag as read by the inference function. -/
def inferTransB (d : OperatorDef) : Bool :=
  getSingleArgumentI d "trans_b" 0 != 0

/-- The `broadcast` flag as read by the inference function. -/
def inferBroadcast (d : OperatorDef) : Bool :=
  getSingleArgumentI d "broadcast" 0 != 0

/-- The `BatchMatMul` schema's `TensorInferenceFunction` (source lines
44-127): dispatches on `broadcast`; both paths tag the result with
`in[0].data_type()`. -/
def inferShape (d : OperatorDef) (inA inB : TensorShape) :
    Except ShapeError TensorShape :=
  if inferBroadcast d then
    .ok ⟨inferShapeDimsBroadcast (inferTransA d) (inferTransB d)
          inA.dims inB.dims, inA.data_type⟩
  else
    (inferShapeDims (inferTransA d) (inferTransB d)
        inA.dims inB.dims).map (fun l => ⟨l, inA.data_type⟩)

/-- Errors raised by the gradient maker: `inputArityMismatch` models
`CAFFE_ENFORCE_EQ(def_.input_size(), 2)`; `unsupportedBroadcast` models the
`CAFFE_ENFORCE(!broadcast, ...)` failure (the `UnsupportedGradientError` of
the specification). -/
inductive GradError where
  | inputArityMismatch
  | unsupportedBroadcast
  deriving DecidableEq

/-- The `broadcast` flag as read by the gradient maker:
`false` unless the argument is present, in which case its `.i()` payload
converted to `bool`. -/
def gradBroadcast (d : OperatorDef) : Bool :=
  if hasArgument d "broadcast" then getArgumentI d "broadcast" != 0 else false

/-- The `trans_a` flag as read by the gradient maker. -/
def gradTransA (d : OperatorDef) : Bool :=
  if hasArgument d "trans_a" then getArgumentI d "trans_a" != 0 else false

/-- The `trans_b` flag as read by the gradient maker. -/
def gradTransB (d : OperatorDef) : Bool :=
  if hasArgument d "trans_b" then getArgumentI d "trans_b" != 0 else false

/-- The `use_scratch` suffix pushed onto every argument vector of the
synthesized operators when the original operator has a `use_scratch`
argument: the source pushes `MakeArgument<int>("use_scratch", 1)` — the
constant `1`, not the original payload. -/
def scratchArgs (d : OperatorDef) : List Argument :=
  if hasArgument d "use_scratch" then [⟨"use_scratch", 1⟩] else []

/-- `CreateOperatorDef(type, name, inputs, outputs, args)`. -/
def CreateOperatorDef (t n : String) (ins outs : List String)
    (args : List Argument) : OperatorDef :=
  ⟨t, n, ins, outs, args⟩

/-- Modelled from the spec: the gradient-name bindings `I(i)`, `GO(0)`,
`GI(i)` are provided by `GradientMakerBase`, which lives outside this
translation unit.  Per the specification's `GradientOperatorSpec` contract
they are symbolic identifiers: `I(i)` is the forward operator's i-th input
name, `GO(0)` the identifier of the output gradient, `GI(i)` the identifier
of the synthesized gradient of input i; the latter two are modelled as the
underlying name suffixed with "_grad". -/
def gradName (s : String) : String := s ++ "_grad"

/-- `GetBatchMatMulGradient::GetGradientDefs` (source lines 133-230):
enforce two inputs, reject `broadcast`, read the transpose flags, build the
four argument vectors (with the `use_scratch` suffix when present), and emit
the two `BatchMatMul` gradient operator definitions for the configuration —
the gradient of input 0 first, then the gradient of input 1. -/
def getGradientDefs (d : OperatorDef) : Except GradError (List OperatorDef) :=
  if d.input.length ≠ 2 then .error .inputArityMismatch
  else if gradBroadcast d then .error .unsupportedBroadcast
  else
    let no_trans_arg := scratchArgs d
    let trans_a_arg := ⟨"trans_a", (1 : Int)⟩ :: scratchArgs d
    let trans_b_arg := ⟨"trans_b", (1 : Int)⟩ :: scratchArgs d
    let trans_both_arg :=
      ⟨"trans_a", (1 : Int)⟩ :: ⟨"trans_b", (1 : Int)⟩ :: scratchArgs d
    let iA := d.input.getD 0 ""
    let iB := d.input.getD 1 ""
    let gO := gradName (d.output.getD 0 "")
    let gA := gradName iA
    let gB := gradName iB
    if gradTransA d then
      if gradTransB d then
        .ok [CreateOperatorDef "BatchMatMul" "" [iB, gO] [gA] trans_both_arg,
             CreateOperatorDef "BatchMatMul" "" [gO, iA] [gB] trans_both_arg]
      else
        .ok [CreateOperatorDef "BatchMatMul" "" [iB, gO] [gA] trans_b_arg,
             CreateOperatorDef "BatchMatMul" "" [iA, gO] [gB] no_trans_arg]
    else
      if gradTransB d then
        .ok [CreateOperatorDef "BatchMatMul" "" [gO, iB] [gA] no_trans_arg,
             CreateOperatorDef "BatchMatMul" "" [gO, iA] [gB] trans_a_arg]
      else
        .ok [CreateOperatorDef "BatchMatMul" "" [gO, iB] [gA] trans_b_arg,
             CreateOperatorDef "BatchMatMul" "" [iA, gO] [gB] trans_a_arg]

/-! Specification-side notions used to state the claims. -/

/-- The output row dimension M per the specification: A's second-to-last
dimension, or its last dimension when `trans_a` is set. -/
def rowDim (ta : Bool) (s : TensorShape) : Nat :=
  if ta then s.dims.getD (s.dims.length - 1) 0
  else s.dims.getD (s.dims.length - 2) 0

/-- The output column dimension N per the specification: B's last dimension,
or its second-to-last dimension when `trans_b` is set. -/
def colDim (tb : Bool) (s : TensorShape) : Nat :=
  if tb then s.dims.getD (s.dims.length - 2) 0
  else s.dims.getD (s.dims.length - 1) 0

/-- A's contraction dimension per the specification: its last axis, or
second-to-last when `trans_a` is set. -/
def contractDimA (ta : Bool) (s : TensorShape) : Nat :=
  if ta then s.dims.getD (s.dims.length - 2) 0
  else s.dims.getD (s.dims.length - 1) 0

/-- B's contraction dimension per the specification: its second-to-last axis,
or last when `trans_b` is set. -/
def contractDimB (tb : Bool) (s : TensorShape) : Nat :=
  if tb then s.dims.getD (s.dims.length - 1) 0
  else s.dims.getD (s.dims.length - 2) 0

/-- The gradient table of the specification (§4.2), written independently of
the gradient maker: for each `trans_a`/`trans_b` pair, the two emitted
`BatchMatMul` specs — the gradient of A first — with the transpose pattern
realized purely through argument flags, and `extra` the propagated
`use_scratch` suffix. -/
def gradientTable (ta tb : Bool) (nA nB nG ngA ngB : String)
    (extra : List Argument) : List OperatorDef :=
  match ta, tb with
  | false, false =>
      [⟨"BatchMatMul", "", [nG, nB], [ngA], ⟨"trans_b", 1⟩ :: extra⟩,
       ⟨"BatchMatMul", "", [nA, nG], [ngB], ⟨"trans_a", 1⟩ :: extra⟩]
  | false, true =>
      [⟨"BatchMatMul", "", [nG, nB], [ngA], extra⟩,
       ⟨"BatchMatMul", "", [nG, nA], [ngB], ⟨"trans_a", 1⟩ :: extra⟩]
  | true, false =>
      [⟨"BatchMatMul", "", [nB, nG], [ngA], ⟨"trans_b", 1⟩ :: extra⟩,
       ⟨"BatchMatMul", "", [nA, nG], [ngB], extra⟩]
  | true, true =>
      [⟨"BatchMatMul", "", [nB, nG], [ngA],
          ⟨"trans_a", 1⟩ :: ⟨"trans_b", 1⟩ :: extra⟩,
       ⟨"BatchMatMul", "", [nG, nA], [ngB],
          ⟨"trans_a", 1⟩ :: ⟨"trans_b", 1⟩ :: extra⟩]

/-- The specification's broadcast output rule (§4.1 broadcast path, steps
1-4), written from the specification's words: promote a 1-D A by prepending
a size-1 axis and a 1-D B by appending one; read M from the promoted A and N
from the promoted B honoring the transpose flags; keep the leading-dims
prefix of the operand with more dimensions verbatim (ties to A); then append
M unless A was 1-D-promoted, append N unless B was 1-D-promoted, and append
a single trailing 1 if both were. -/
def broadcastSpecDims (ta tb : Bool) (dimsA0 dimsB0 : List Nat) : List Nat :=
  let dims_A := if dimsA0.length = 1 then 1 :: dimsA0 else dimsA0
  let dims_B := if dimsB0.length = 1 then dimsB0 ++ [1] else dimsB0
  let M := if ta then dims_A.getD (dims_A.length - 1) 0
           else dims_A.getD (dims_A.length - 2) 0
  let N := if tb then dims_B.getD (dims_B.length - 2) 0
           else dims_B.getD (dims_B.length - 1) 0
  (if dims_B.length ≤ dims_A.length then dims_A.take (dims_A.length - 2)
   else dims_B.take (dims_B.length - 2))
  ++ (if dimsA0.length = 1 then [] else [M])
  ++ (if dimsB0.length = 1 then [] else [N])
  ++ (if dimsA0.length = 1 ∧ dimsB0.length = 1 then [1] else [])

/-- Whether an `Except` result is a success. -/
def isOk {ε α : Type} : Except ε α → Bool
  | .ok _ => true
  | .error _ => false

/-- The emitted operator list of a successful gradient synthesis (`[]` on
error). -/
def okDefs : Except GradError (List OperatorDef) → List OperatorDef
  | .ok l => l
  | .error _ => []

/-- The dimension list of a successful shape-inference result (`[]` on
error); used to state properties of parts of the inferred shape. -/
def okDims : Except ShapeError TensorShape → List Nat
  | .ok t => t.dims
  | .error _ => []

/-! Helper lemmas. -/

theorem list_set_append {α : Type} (t r : List α) (i : Nat) (a : α) :
    (t ++ r).set (t.length + i) a = t ++ r.set i a := by
  induction t with
  | nil => simp
  | cons x xs ih => simp [List.set, Nat.succ_add, ih]

theorem list_drop_len_sub_two {α : Type} (l : List α) (h : 2 ≤ l.length) :
    ∃ p q, l.drop (l.length - 2) = [p, q] := by
  have hlen : (l.drop (l.length - 2)).length = 2 := by
    rw [List.length_drop]; omega
  cases hd : l.drop (l.length - 2) with
  | nil => rw [hd] at hlen; simp at hlen
  | cons p r =>
    cases r with
    | nil => rw [hd] at hlen; simp at hlen
    | cons q r2 =>
      cases r2 with
      | nil => exact ⟨p, q, rfl⟩
      | cons x r3 => rw [hd] at hlen; simp at hlen

theorem list_set_last_two {α : Type} (l : List α) (a b : α) (h : 2 ≤ l.length) :
    (l.set (l.length - 2) a).set (l.length - 1) b
      = l.take (l.length - 2) ++ [a, b] := by
  obtain ⟨p, q, hpq⟩ := list_drop_len_sub_two l h
  have htake : (l.take (l.length - 2)).length = l.length - 2 := by
    rw [List.length_take]; omega
  have hl : l.take (l.length - 2) ++ [p, q] = l := by
    conv_rhs => rw [← List.take_append_drop (l.length - 2) l]
    rw [hpq]
  have k0 := list_set_append (l.take (l.length - 2)) [p, q] 0 a
  have k1 := list_set_append (l.take (l.length - 2)) ([p, q].set 0 a) 1 b
  rw [hl] at k0
  simp only [List.set] at k0 k1
  rw [htake] at k0 k1
  have e0 : l.length - 2 + 0 = l.length - 2 := by omega
  have e1 : l.length - 2 + 1 = l.length - 1 := by omega
  rw [e0] at k0
  rw [e1] at k1
  rw [k0, k1]

theorem getElem?_eq_getD_of_lt {l : List Nat} {i : Nat} (h : i < l.length) :
    l[i]? = some (l.getD i 0) := by
  rw [List.getD_eq_getElem?_getD, List.getElem?_eq_getElem h]
  simp [List.getElem?_eq_getElem h]

/-- Unfolded form of the non-broadcast inference path when rank(A) ≥ 2 and
the B-side index (computed from A's rank) is in range for B. -/
theorem inferShapeDims_eq (ta tb : Bool) (dimsA dimsB : List Nat)
    (hr : 2 ≤ dimsA.length)
    (hB : (if tb then dimsA.length - 2 else dimsA.length - 1) < dimsB.length) :
    inferShapeDims ta tb dimsA dimsB
      = .ok (dimsA.take (dimsA.length - 2)
          ++ [if ta then dimsA.getD (dimsA.length - 1) 0
              else dimsA.getD (dimsA.length - 2) 0,
              if tb then dimsB.getD (dimsA.length - 2) 0
              else dimsB.getD (dimsA.length - 1) 0]) := by
  have ha : (if ta then dimsA[dimsA.length - 1]? else dimsA[dimsA.length - 2]?)
      = some (if ta then dimsA.getD (dimsA.length - 1) 0
              else dimsA.getD (dimsA.length - 2) 0) := by
    cases ta <;>
      simp only [if_true, if_false, Bool.false_eq_true] <;>
      exact getElem?_eq_getD_of_lt (by omega)
  have hb : (if tb then dimsB[dimsA.length - 2]? else dimsB[dimsA.length - 1]?)
      = some (if tb then dimsB.getD (dimsA.length - 2) 0
              else dimsB.getD (dimsA.length - 1) 0) := by
    cases tb <;>
      simp only [if_true, if_false, Bool.false_eq_true] <;>
      refine getElem?_eq_getD_of_lt (by simpa using hB)
  simp only [inferShapeDims, if_neg (by omega : ¬ dimsA.length < 2), ha, hb]
  rw [list_set_last_two _ _ _ hr]

/-- Unfolded form of `inferShape` in non-broadcast mode for equal-rank
inputs of rank ≥ 2 (no contraction-dimension hypothesis: the source never
checks it). -/
theorem inferShape_nonbroadcast_eq (d : OperatorDef) (A B : TensorShape)
    (hnb : inferBroadcast d = false)
    (hr : 2 ≤ A.dims.length)
    (hrank : B.dims.length = A.dims.length) :
    inferShape d A B
      = .ok ⟨A.dims.take (A.dims.length - 2)
              ++ [rowDim (inferTransA d) A, colDim (inferTransB d) B],
             A.data_type⟩ := by
  have hB : (if inferTransB d then A.dims.length - 2 else A.dims.length - 1)
      < B.dims.length := by
    rw [hrank]; cases inferTransB d <;> simp <;> omega
  have h := inferShapeDims_eq (inferTransA d) (inferTransB d) A.dims B.dims hr hB
  simp only [inferShape, hnb, Bool.false_eq_true, if_false, h, Except.map]
  simp [rowDim, colDim, hrank]

/-! Claim theorems. -/

/-- C1: in non-broadcast mode, for every pair of input shapes where A has
rank r ≥ 2, B has the same rank with matching batch dimensions and matching
contraction dimension, `inferShape` returns a shape of rank r whose leading
r-2 entries equal A's leading r-2 entries and whose last two entries are
(M, N), where M is A's second-to-last dimension (or last if trans_a) and N
is B's last dimension (or second-to-last if trans_b). -/
theorem inferShape_nonbroadcast_shape (d : OperatorDef) (A B : TensorShape)
    (hnb : inferBroadcast d = false)
    (hr : 2 ≤ A.dims.length)
    (hrank : B.dims.length = A.dims.length)
    (hbatch : B.dims.take (A.dims.length - 2) = A.dims.take (A.dims.length - 2))
    (hK : contractDimA (inferTransA d) A = contractDimB (inferTransB d) B) :
    inferShape d A B
      = .ok ⟨A.dims.take (A.dims.length - 2)
              ++ [rowDim (inferTransA d) A, colDim (inferTransB d) B],
             A.data_type⟩
    ∧ (A.dims.take (A.dims.length - 2)
        ++ [rowDim (inferTransA d) A, colDim (inferTransB d) B]).length
      = A.dims.length := by
  refine ⟨inferShape_nonbroadcast_eq d A B hnb hr hrank, ?_⟩
  simp only [List.length_append, List.length_take, List.length_cons,
    List.length_nil]
  omega

/-- C1 witness: A:(2,3,4), B:(2,4,5), no transposes, broadcast absent —
the inferred shape is (2,3,5) with A's data type. -/
theorem inferShape_nonbroadcast_shape_witness :
    inferShape ⟨"BatchMatMul", "op", ["A", "B"], ["Y"], []⟩
        ⟨[2, 3, 4], 7⟩ ⟨[2, 4, 5], 3⟩ = .ok ⟨[2, 3, 5], 7⟩ := by
  have h := inferShape_nonbroadcast_shape
    ⟨"BatchMatMul", "op", ["A", "B"], ["Y"], []⟩ ⟨[2, 3, 4], 7⟩ ⟨[2, 4, 5], 3⟩
    (by decide) (by decide) (by decide) (by decide) (by decide)
  exact h.1.trans (by decide)

/-- C4 counterexample: A:(2,3,4) and B:(2,5,6) with no transpose have
mismatched contraction dimensions (4 vs 5), yet `inferShape` does not fail:
it returns (2,3,6). -/
theorem inferShape_contraction_mismatch_cex :
    contractDimA (inferTransA ⟨"BatchMatMul", "op", ["A", "B"], ["Y"], []⟩)
        ⟨[2, 3, 4], 0⟩
      ≠ contractDimB (inferTransB ⟨"BatchMatMul", "op", ["A", "B"], ["Y"], []⟩)
        ⟨[2, 5, 6], 0⟩
    ∧ inferShape ⟨"BatchMatMul", "op", ["A", "B"], ["Y"], []⟩
        ⟨[2, 3, 4], 0⟩ ⟨[2, 5, 6], 0⟩ = .ok ⟨[2, 3, 6], 0⟩ := by decide

/-- C4 amended: `inferShape` performs no contraction-dimension validation —
in non-broadcast mode with equal ranks ≥ 2 it succeeds and returns A's shape
with its last two entries replaced by (M, N) even when the contraction
dimensions of A and B differ. -/
theorem inferShape_ok_despite_contraction_mismatch (d : OperatorDef)
    (A B : TensorShape)
    (hnb : inferBroadcast d = false)
    (hr : 2 ≤ A.dims.length)
    (hrank : B.dims.length = A.dims.length)
    (hK : contractDimA (inferTransA d) A ≠ contractDimB (inferTransB d) B) :
    inferShape d A B
      = .ok ⟨A.dims.take (A.dims.length - 2)
              ++ [rowDim (inferTransA d) A, colDim (inferTransB d) B],
             A.data_type⟩ :=
  inferShape_nonbroadcast_eq d A B hnb hr hrank

/-- C4 amended witness: the mismatched pair A:(2,3,4), B:(2,5,6) yields
(2,3,6) without error. -/
theorem inferShape_ok_despite_contraction_mismatch_witness :
    inferShape ⟨"BatchMatMul", "op", ["A", "B"], ["Y"], []⟩
        ⟨[2, 3, 4], 0⟩ ⟨[2, 5, 6], 0⟩ = .ok ⟨[2, 3, 6], 0⟩ := by
  have h := inferShape_ok_despite_contraction_mismatch
    ⟨"BatchMatMul", "op", ["A", "B"], ["Y"], []⟩ ⟨[2, 3, 4], 0⟩ ⟨[2, 5, 6], 0⟩
    (by decide) (by decide) (by decide) (by decide)
  exact h.trans (by decide)

/-- C5 counterexample: A:(3,4) has rank 2, B:(2,4,5) has rank 3,
broadcast=0 — yet `inferShape` returns a shape ((3,4)) instead of raising a
shape error. -/
theorem inferShape_rank_mismatch_cex :
    (⟨[3, 4], 0⟩ : TensorShape).dims.length
      ≠ (⟨[2, 4, 5], 0⟩ : TensorShape).dims.length
    ∧ inferShape ⟨"BatchMatMul", "op", ["A", "B"], ["Y"], []⟩
        ⟨[3, 4], 0⟩ ⟨[2, 4, 5], 0⟩ = .ok ⟨[3, 4], 0⟩ := by decide

/-- C5 amended: non-broadcast `inferShape` performs no rank-equality check.
With rank(A) ≥ 2, it succeeds — even for unequal ranks — whenever the index
into B computed from A's rank (rank(A)-2 if trans_b else rank(A)-1) is in
range for B, and it fails (with the out-of-range dimension-access error, not
a rank-equality error) exactly when that index is out of range. -/
theorem inferShape_no_rank_equality_check (d : OperatorDef) (A B : TensorShape)
    (hnb : inferBroadcast d = false)
    (hr : 2 ≤ A.dims.length) :
    ((if inferTransB d then A.dims.length - 2 else A.dims.length - 1)
        < B.dims.length →
      isOk (inferShape d A B) = true)
    ∧ (B.dims.length
        ≤ (if inferTransB d then A.dims.length - 2 else A.dims.length - 1) →
      inferShape d A B = .error .dimOutOfRange) := by
  constructor
  · intro hB
    have h := inferShapeDims_eq (inferTransA d) (inferTransB d) A.dims B.dims hr hB
    simp [inferShape, hnb, h, Except.map, isOk]
  · intro hB
    have hbnone :
        (if inferTransB d then B.dims[A.dims.length - 2]?
         else B.dims[A.dims.length - 1]?) = none := by
      cases htb : inferTransB d <;>
        simp only [if_true, if_false, Bool.false_eq_true] <;>
        refine List.getElem?_eq_none (by rw [htb] at hB; simpa using hB)
    have hasome :
        (if inferTransA d then A.dims[A.dims.length - 1]?
         else A.dims[A.dims.length - 2]?)
        = some (if inferTransA d then A.dims.getD (A.dims.length - 1) 0
                else A.dims.getD (A.dims.length - 2) 0) := by
      cases inferTransA d <;>
        simp only [if_true, if_false, Bool.false_eq_true] <;>
        exact getElem?_eq_getD_of_lt (by omega)
    have herr : inferShapeDims (inferTransA d) (inferTransB d) A.dims B.dims
        = .error .dimOutOfRange := by
      simp only [inferShapeDims, if_neg (by omega : ¬ A.dims.length < 2),
        hasome, hbnone]
    simp [inferShape, hnb, herr, Except.map]

/-- C5 amended witness: unequal ranks A:(3,4), B:(2,4,5) succeed; and with
B of rank 1 ((7,)) against A of rank 3 the access is out of range and the
dimension error is raised. -/
theorem inferShape_no_rank_equality_check_witness :
    isOk (inferShape ⟨"BatchMatMul", "op", ["A", "B"], ["Y"], []⟩
        ⟨[3, 4], 0⟩ ⟨[2, 4, 5], 0⟩) = true
    ∧ inferShape ⟨"BatchMatMul", "op", ["A", "B"], ["Y"], []⟩
        ⟨[2, 3, 4], 0⟩ ⟨[7], 0⟩ = .error .dimOutOfRange :=
  ⟨(inferShape_no_rank_equality_check
      ⟨"BatchMatMul", "op", ["A", "B"], ["Y"], []⟩ ⟨[3, 4], 0⟩ ⟨[2, 4, 5], 0⟩
      (by decide) (by decide)).1 (by decide),
   (inferShape_no_rank_equality_check
      ⟨"BatchMatMul", "op", ["A", "B"], ["Y"], []⟩ ⟨[2, 3, 4], 0⟩ ⟨[7], 0⟩
      (by decide) (by decide)).2 (by decide)⟩

/-- C8: with broadcast off, `inferShape` fails with the rank shape error
whenever rank(A) < 2, for every B. -/
theorem inferShape_rank_lt_two_error (d : OperatorDef) (A B : TensorShape)
    (hnb : inferBroadcast d = false)
    (hr : A.dims.length < 2) :
    inferShape d A B = .error .rankTooSmall := by
  have herr : inferShapeDims (inferTransA d) (inferTransB d) A.dims B.dims
      = .error .rankTooSmall := by
    simp only [inferShapeDims, if_pos hr]
  simp [inferShape, hnb, herr, Except.map]

/-- C8 witness: a rank-1 A ((4,)) with broadcast=0 is rejected. -/
theorem inferShape_rank_lt_two_error_witness :
    inferShape ⟨"BatchMatMul", "op", ["A", "B"], ["Y"], []⟩
        ⟨[4], 0⟩ ⟨[4, 5], 0⟩ = .error .rankTooSmall :=
  inferShape_rank_lt_two_error ⟨"BatchMatMul", "op", ["A", "B"], ["Y"], []⟩
    ⟨[4], 0⟩ ⟨[4, 5], 0⟩ (by decide) (by decide)

/-- C10: in both modes, whenever `inferShape` succeeds the data-type tag of
the result is input A's data type — B's data type is never consulted. -/
theorem inferShape_data_type_from_A (d : OperatorDef) (A B Y : TensorShape)
    (h : inferShape d A B = .ok Y) :
    Y.data_type = A.data_type := by
  unfold inferShape at h
  by_cases hb : inferBroadcast d
  · rw [if_pos hb] at h
    simp only [Except.ok.injEq] at h
    rw [← h]
  · rw [if_neg hb] at h
    cases he : inferShapeDims (inferTransA d) (inferTransB d) A.dims B.dims with
    | ok l => rw [he] at h; simp [Except.map] at h; rw [← h]
    | error e => rw [he] at h; simp [Except.map] at h

/-- Refinement of the source's broadcast path against the specification's
broadcast rule: they compute the same dimension list on every input. -/
theorem inferShapeDimsBroadcast_eq_spec (ta tb : Bool) (a b : List Nat) :
    inferShapeDimsBroadcast ta tb a b = broadcastSpecDims ta tb a b := by
  unfold inferShapeDimsBroadcast broadcastSpecDims
  by_cases h1 : a.length = 1 <;> by_cases h2 : b.length = 1 <;>
    simp [h1, h2]

/-- Decomposition of `broadcastSpecDims` as the chosen leading-dims prefix
followed by the appended tail, with the let-bindings spelled out. -/
theorem broadcastSpecDims_decomp (ta tb : Bool) (a b : List Nat) :
    broadcastSpecDims ta tb a b
      = (if (if b.length = 1 then b ++ [1] else b).length
            ≤ (if a.length = 1 then 1 :: a else a).length
         then (if a.length = 1 then 1 :: a else a).take
                ((if a.length = 1 then 1 :: a else a).length - 2)
         else (if b.length = 1 then b ++ [1] else b).take
                ((if b.length = 1 then b ++ [1] else b).length - 2))
        ++ ((if a.length = 1 then []
             else [if ta then (if a.length = 1 then 1 :: a else a).getD
                     ((if a.length = 1 then 1 :: a else a).length - 1) 0
                   else (if a.length = 1 then 1 :: a else a).getD
                     ((if a.length = 1 then 1 :: a else a).length - 2) 0])
          ++ ((if b.length = 1 then []
               else [if tb then (if b.length = 1 then b ++ [1] else b).getD
                       ((if b.length = 1 then b ++ [1] else b).length - 2) 0
                     else (if b.length = 1 then b ++ [1] else b).getD
                       ((if b.length = 1 then b ++ [1] else b).length - 1) 0])
            ++ (if a.length = 1 ∧ b.length = 1 then [1] else []))) := by
  unfold broadcastSpecDims
  simp only [List.append_assoc]

/-- Unfolded form of `inferShape` in broadcast mode. -/
theorem inferShape_broadcast_eq (d : OperatorDef) (A B : TensorShape)
    (hbc : inferBroadcast d = true) :
    inferShape d A B
      = .ok ⟨broadcastSpecDims (inferTransA d) (inferTransB d) A.dims B.dims,
             A.data_type⟩ := by
  simp [inferShape, hbc, inferShapeDimsBroadcast_eq_spec]

/-- C6: in broadcast mode the inferred shape follows the 1-D promotion rule
(prepend a 1 to a 1-D A, append a 1 to a 1-D B), then appends M unless A was
1-D-promoted, appends N unless B was 1-D-promoted, and appends a single
trailing 1 if both were (`broadcastSpecDims` states exactly that rule); in
particular a 1-D A of length K against B of shape (K, N) without transposes
yields (N,). -/
theorem inferShape_broadcast_promotion (d : OperatorDef) (A B : TensorShape)
    (K N : Nat)
    (hbc : inferBroadcast d = true) :
    inferShape d A B
      = .ok ⟨broadcastSpecDims (inferTransA d) (inferTransB d) A.dims B.dims,
             A.data_type⟩
    ∧ (inferTransB d = false →
        inferShape d ⟨[K], A.data_type⟩ ⟨[K, N], B.data_type⟩
          = .ok ⟨[N], A.data_type⟩) := by
  refine ⟨inferShape_broadcast_eq d A B hbc, fun htb => ?_⟩
  rw [inferShape_broadcast_eq d ⟨[K], A.data_type⟩ ⟨[K, N], B.data_type⟩ hbc]
  cases hta : inferTransA d <;>
    simp [broadcastSpecDims, hta, htb]

/-- C6 witness: a 1-D A of length 4 against B of shape (4, 5) in broadcast
mode yields the shape (5,). -/
theorem inferShape_broadcast_promotion_witness :
    inferShape ⟨"BatchMatMul", "op", ["A", "B"], ["Y"], [⟨"broadcast", 1⟩]⟩
        ⟨[4], 6⟩ ⟨[4, 5], 3⟩ = .ok ⟨[5], 6⟩ :=
  (inferShape_broadcast_promotion
      ⟨"BatchMatMul", "op", ["A", "B"], ["Y"], [⟨"broadcast", 1⟩]⟩
      ⟨[4], 6⟩ ⟨[4, 5], 3⟩ 4 5 (by decide)).2 (by decide)

/-- C7: in broadcast mode the leading (batch) part of the inferred shape is
the leading-dims prefix — all dims but the trailing two, after 1-D
promotion — of whichever operand has more dimensions, copied verbatim
(with a tie going to A); no pairwise max / size-1 broadcasting of batch
dimensions is performed. -/
theorem inferShape_broadcast_batch_dims_verbatim (d : OperatorDef)
    (A B : TensorShape)
    (hbc : inferBroadcast d = true) :
    ((if B.dims.length = 1 then B.dims ++ [1] else B.dims).length
        ≤ (if A.dims.length = 1 then 1 :: A.dims else A.dims).length →
      (okDims (inferShape d A B)).take
          ((if A.dims.length = 1 then 1 :: A.dims else A.dims).length - 2)
        = (if A.dims.length = 1 then 1 :: A.dims else A.dims).take
            ((if A.dims.length = 1 then 1 :: A.dims else A.dims).length - 2))
    ∧ ((if A.dims.length = 1 then 1 :: A.dims else A.dims).length
        < (if B.dims.length = 1 then B.dims ++ [1] else B.dims).length →
      (okDims (inferShape d A B)).take
          ((if B.dims.length = 1 then B.dims ++ [1] else B.dims).length - 2)
        = (if B.dims.length = 1 then B.dims ++ [1] else B.dims).take
            ((if B.dims.length = 1 then B.dims ++ [1] else B.dims).length - 2)) := by
  have hok : okDims (inferShape d A B)
      = broadcastSpecDims (inferTransA d) (inferTransB d) A.dims B.dims := by
    rw [inferShape_broadcast_eq d A B hbc]; rfl
  rw [hok, broadcastSpecDims_decomp]
  constructor
  · intro h
    rw [if_pos h]
    refine List.take_left' ?_
    rw [List.length_take]
    omega
  · intro h
    have hcond : ¬ ((if B.dims.length = 1 then B.dims ++ [1] else B.dims).length
        ≤ (if A.dims.length = 1 then 1 :: A.dims else A.dims).length) := by
      omega
    rw [if_neg hcond]
    refine List.take_left' ?_
    rw [List.length_take]
    omega

/-- C7 witness: A:(7,3,4) against the higher-rank B:(9,2,4,5) in broadcast
mode — B's batch prefix (9,2) is copied verbatim even though it does not
match A's batch prefix (7,). -/
theorem inferShape_broadcast_batch_dims_verbatim_witness :
    (okDims (inferShape
        ⟨"BatchMatMul", "op", ["A", "B"], ["Y"], [⟨"broadcast", 1⟩]⟩
        ⟨[7, 3, 4], 0⟩ ⟨[9, 2, 4, 5], 0⟩)).take 2 = [9, 2] := by
  have h := (inferShape_broadcast_batch_dims_verbatim
      ⟨"BatchMatMul", "op", ["A", "B"], ["Y"], [⟨"broadcast", 1⟩]⟩
      ⟨[7, 3, 4], 0⟩ ⟨[9, 2, 4, 5], 0⟩ (by decide)).2 (by decide)
  exact h.trans (by decide)

/-- C10 witness: broadcast mode with B the higher-rank operand (rank 3,
data type 3) and A of rank 1 with data type 6 — the inferred shape carries
A's data type 6. -/
theorem inferShape_data_type_from_A_witness :
    (⟨[9, 5], 6⟩ : TensorShape).data_type
      = (⟨[4], 6⟩ : TensorShape).data_type :=
  inferShape_data_type_from_A
    ⟨"BatchMatMul", "op", ["A", "B"], ["Y"], [⟨"broadcast", 1⟩]⟩
    ⟨[4], 6⟩ ⟨[9, 4, 5], 3⟩ ⟨[9, 5], 6⟩ (by decide)

/-- Shared unfolding of the gradient maker for non-broadcast configurations:
the emitted list is exactly the specification's gradient table instantiated
with the operator's names and the `use_scratch` suffix. -/
theorem getGradientDefs_eq_table (d : OperatorDef)
    (h2 : d.input.length = 2)
    (hb : gradBroadcast d = false) :
    getGradientDefs d
      = .ok (gradientTable (gradTransA d) (gradTransB d)
          (d.input.getD 0 "") (d.input.getD 1 "")
          (gradName (d.output.getD 0 ""))
          (gradName (d.input.getD 0 "")) (gradName (d.input.getD 1 ""))
          (scratchArgs d)) := by
  unfold getGradientDefs
  rw [if_neg (by simp [h2]), if_neg (by simp [hb])]
  cases ha : gradTransA d <;> cases hb2 : gradTransB d <;>
    simp [gradientTable, CreateOperatorDef]

/-- C2: for every non-broadcast configuration with two inputs, the gradient
maker emits exactly two `BatchMatMul` specs — the gradient of input A before
the gradient of input B — matching the specification's table for the four
trans_a/trans_b cases, with every transpose expressed only through the
argument flags of the emitted specs. -/
theorem getGradientDefs_follow_table (d : OperatorDef)
    (h2 : d.input.length = 2)
    (hb : gradBroadcast d = false) :
    getGradientDefs d
      = .ok (gradientTable (gradTransA d) (gradTransB d)
          (d.input.getD 0 "") (d.input.getD 1 "")
          (gradName (d.output.getD 0 ""))
          (gradName (d.input.getD 0 "")) (gradName (d.input.getD 1 ""))
          (scratchArgs d))
    ∧ (gradientTable (gradTransA d) (gradTransB d)
          (d.input.getD 0 "") (d.input.getD 1 "")
          (gradName (d.output.getD 0 ""))
          (gradName (d.input.getD 0 "")) (gradName (d.input.getD 1 ""))
          (scratchArgs d)).length = 2 := by
  refine ⟨getGradientDefs_eq_table d h2 hb, ?_⟩
  cases gradTransA d <;> cases gradTransB d <;> simp [gradientTable]

/-- C2 witness: with trans_a=1, trans_b=0 the emitted pair is
dA = B·Gᵗ (inputs B, G with trans_b=1) then dB = A·G (inputs A, G, no
transposes). -/
theorem getGradientDefs_follow_table_witness :
    getGradientDefs ⟨"BatchMatMul", "op", ["A", "B"], ["Y"], [⟨"trans_a", 1⟩]⟩
      = .ok [⟨"BatchMatMul", "", ["B", "Y_grad"], ["A_grad"], [⟨"trans_b", 1⟩]⟩,
             ⟨"BatchMatMul", "", ["A", "Y_grad"], ["B_grad"], []⟩] := by
  have h := (getGradientDefs_follow_table
      ⟨"BatchMatMul", "op", ["A", "B"], ["Y"], [⟨"trans_a", 1⟩]⟩
      (by decide) (by decide)).1
  exact h.trans (by decide)

/-- C3: for every two-input configuration with the broadcast flag set —
whatever trans_a and trans_b are — gradient synthesis fails with the
unsupported-broadcast error and emits no operator specs. -/
theorem getGradientDefs_broadcast_unsupported (d : OperatorDef)
    (h2 : d.input.length = 2)
    (hb : gradBroadcast d = true) :
    getGradientDefs d = .error .unsupportedBroadcast
    ∧ okDefs (getGradientDefs d) = [] := by
  have h : getGradientDefs d = .error .unsupportedBroadcast := by
    unfold getGradientDefs
    rw [if_neg (by simp [h2]), if_pos hb]
  exact ⟨h, by rw [h]; rfl⟩

/-- C3 witness: broadcast=1 with trans_a=1 is rejected. -/
theorem getGradientDefs_broadcast_unsupported_witness :
    getGradientDefs ⟨"BatchMatMul", "op", ["A", "B"], ["Y"],
        [⟨"broadcast", 1⟩, ⟨"trans_a", 1⟩]⟩
      = .error .unsupportedBroadcast :=
  (getGradientDefs_broadcast_unsupported
    ⟨"BatchMatMul", "op", ["A", "B"], ["Y"],
        [⟨"broadcast", 1⟩, ⟨"trans_a", 1⟩]⟩
    (by decide) (by decide)).1

/-- C9 counterexample: the forward operator carries `use_scratch` with value
0, yet both emitted gradient specs carry `use_scratch` with value 1 — the
original value is not propagated. -/
theorem use_scratch_value_not_propagated_cex :
    getArgumentI ⟨"BatchMatMul", "op", ["A", "B"], ["Y"],
        [⟨"use_scratch", 0⟩]⟩ "use_scratch" = 0
    ∧ getGradientDefs ⟨"BatchMatMul", "op", ["A", "B"], ["Y"],
        [⟨"use_scratch", 0⟩]⟩
      = .ok [⟨"BatchMatMul", "", ["Y_grad", "B"], ["A_grad"],
              [⟨"trans_b", 1⟩, ⟨"use_scratch", 1⟩]⟩,
             ⟨"BatchMatMul", "", ["A", "Y_grad"], ["B_grad"],
              [⟨"trans_a", 1⟩, ⟨"use_scratch", 1⟩]⟩] := by decide

/-- C9 amended: if the original operator carries a `use_scratch` argument
(whatever its value), both emitted specs carry `use_scratch` with the
constant value 1; if it carries none, neither emitted spec mentions
`use_scratch`. -/
theorem use_scratch_presence_propagated (d : OperatorDef)
    (h2 : d.input.length = 2)
    (hb : gradBroadcast d = false) :
    (okDefs (getGradientDefs d)).map
        (fun o => o.arg.filter (fun a => a.name == "use_scratch"))
      = (if hasArgument d "use_scratch"
         then [[⟨"use_scratch", 1⟩], [⟨"use_scratch", 1⟩]]
         else [[], []]) := by
  rw [getGradientDefs_eq_table d h2 hb]
  by_cases hs : hasArgument d "use_scratch" <;>
    cases gradTransA d <;> cases gradTransB d <;>
      simp [okDefs, gradientTable, scratchArgs, hs]

/-- C9 amended witness: with `use_scratch` present (value 0), both emitted
specs carry exactly `use_scratch = 1`. -/
theorem use_scratch_presence_propagated_witness :
    (okDefs (getGradientDefs ⟨"BatchMatMul", "op", ["A", "B"], ["Y"],
        [⟨"use_scratch", 0⟩]⟩)).map
        (fun o => o.arg.filter (fun a => a.name == "use_scratch"))
      = [[⟨"use_scratch", 1⟩], [⟨"use_scratch", 1⟩]] := by
  have h := use_scratch_presence_propagated
    ⟨"BatchMatMul", "op", ["A", "B"], ["Y"], [⟨"use_scratch", 0⟩]⟩
    (by decide) (by decide)
  exact h.trans (by decide)

end BatchMatMul
